import Mathlib

/-!
Verification development for `library/scan_services.py`: a service-state
scanner that probes sysv / upstart / chkconfig / systemd backends and merges
their per-service records into one map.

The Python module is embedded shallowly:

* the host is an explicit `ScanEnv` value: binary-resolution results
  (`module.get_bin_path`), the contents of `/proc/1/comm`, and a pure
  `run : String → Int × String × String` oracle standing for
  `module.run_command` (one deterministic `(rc, stdout, stderr)` triple per
  command string, which is how the scanner invokes it);
* Python string primitives (`str.split`, `str.split("\n")`, `str.lower`,
  `str.replace`, `"x" in y`, `" ".join`) are re-implemented over `List Char`
  for the ASCII data this module handles;
* the two hand-rolled regular expressions are implemented as backtracking
  matchers specialised to their fixed patterns, following Python `re.match`
  semantics (anchored at the start, greedy / lazy quantifiers, ordered
  alternation, `.` never matching a newline);
* Python dicts become association lists with replace-in-place insertion, the
  same key-overwrite semantics (`services[name] = payload`, `dict |= other`).
-/

/-! ## Python string primitives -/

/-- Python whitespace characters (`str.split()` / `\s`), ASCII range. -/
def pyIsSpace (c : Char) : Bool :=
  c = ' ' || c = '\t' || c = '\n' || c = '\r' || c = '\x0b' || c = '\x0c'

/-- Python `\w` word characters, ASCII range: `[a-zA-Z0-9_]`. -/
def chIsWord (c : Char) : Bool :=
  c.isAlphanum || c = '_'

/-- `s.split(sep)` for a single-character separator: every occurrence of the
separator cuts, empty pieces are kept (Python semantics). -/
def splitOnChar (sep : Char) : List Char → List (List Char)
  | [] => [[]]
  | c :: rest =>
    match splitOnChar sep rest with
    | [] => [[c]]
    | h :: t => if c = sep then [] :: h :: t else (c :: h) :: t

/-- Python `stdout.split("\n")`. -/
def pyLines (s : String) : List String :=
  (splitOnChar '\n' s.toList).map (fun l => (⟨l⟩ : String))

/-- Helper for `pySplit`: accumulates the current (reversed) token. -/
def pySplitAux : List Char → List Char → List String
  | acc, [] => if acc = [] then [] else [(⟨acc.reverse⟩ : String)]
  | acc, c :: rest =>
    if pyIsSpace c then
      if acc = [] then pySplitAux [] rest
      else (⟨acc.reverse⟩ : String) :: pySplitAux [] rest
    else pySplitAux (c :: acc) rest

/-- Python `line.split()`: split on runs of whitespace, no empty tokens. -/
def pySplit (s : String) : List String :=
  pySplitAux [] s.toList

/-- Python `sep.join(parts)`. -/
def joinWith (sep : String) : List String → String
  | [] => ""
  | [x] => x
  | x :: y :: t => x ++ sep ++ joinWith sep (y :: t)

/-- Does `needle` occur at the start of `hay`? -/
def chStarts : List Char → List Char → Bool
  | [], _ => true
  | _ :: _, [] => false
  | a :: as, b :: bs => a = b && chStarts as bs

/-- Does `needle` occur anywhere in `hay`? -/
def containsSub (needle : List Char) : List Char → Bool
  | [] => chStarts needle []
  | c :: rest => chStarts needle (c :: rest) || containsSub needle rest

/-- Python `a in b` on strings (substring containment). -/
def pyIn (a b : String) : Bool :=
  containsSub a.toList b.toList

/-- Python `s.lower()`, ASCII range. -/
def pyLower (s : String) : String :=
  ⟨s.toList.map Char.toLower⟩

/-- Python `stdout.replace("\r", "")`: drop every carriage return. -/
def removeCR (s : String) : String :=
  ⟨s.toList.filter (fun c => c ≠ '\r')⟩

/-- Python `x or None` on an optional string: `""` collapses to `None`. -/
def pyOrNone : Option String → Option String
  | none => none
  | some q => if q = "" then none else some q

/-! ## Data model -/

/-- The value stored under `"state"`.  The chkconfig branch momentarily holds
the raw numeric exit code (`service_state = rc`, line 125 of the source), so
the field is a sum of the string form and the numeric form. -/
inductive SState where
  | strState (s : String)
  | codeState (n : Int)
deriving DecidableEq, Repr

/-- `service_state in (0,)` from the source: the membership test the chkconfig
branch applies to the momentarily-numeric state. -/
def stateEqZero : SState → Bool
  | .strState _ => false
  | .codeState n => n = 0

/-- One service record.  `goal`/`pid` model the optional dict keys: `none`
means the key is absent from the emitted payload. -/
structure Record where
  name : String
  state : SState
  source : String
  goal : Option String := none
  pid : Option String := none
deriving DecidableEq, Repr

/-- A Python dict keyed by service name: association list, unique keys
maintained by replace-in-place insertion. -/
abbrev SMap := List (String × Record)

/-- `services[k] = v`: replace in place if the key exists, else append. -/
def smInsert : SMap → String → Record → SMap
  | [], k, v => [(k, v)]
  | (k', v') :: rest, k, v =>
    if k' = k then (k, v) :: rest else (k', v') :: smInsert rest k v

/-- Dict lookup. -/
def smFind : SMap → String → Option Record
  | [], _ => none
  | (k', v) :: rest, k => if k' = k then some v else smFind rest k

/-- `all_services |= svc`: key-overwrite union, right operand wins. -/
def smUnion (a b : SMap) : SMap :=
  b.foldl (fun m p => smInsert m p.1 p.2) a

/-- The keys of a map. -/
def smKeys (m : SMap) : List String :=
  m.map Prod.fst

/-- The host a single scan runs against. -/
structure ScanEnv where
  servicePath : Option String
  initctlPath : Option String
  chkconfigPath : Option String
  systemctlPath : Option String
  procComm : Option (List String)
  run : String → Int × String × String

/-- The value `main` passes to `module.exit_json`. -/
inductive ScanReport where
  | skipped (msg : String)
  | success (services : SMap) (msg : Option String)
deriving DecidableEq, Repr

/-! ## The Upstart regex

`^\s?(?P<name>.*)\s(?P<goal>\w+)\/(?P<state>\w+)(\,\sprocess\s(?P<pid>[0-9]+))?\s*$`

implemented as a backtracking matcher: the optional leading `\s?` is tried
consumed-first; the greedy `(?P<name>.*)` is tried longest-first; `\w+` runs
and the digit run are maximal (each is followed by a character class disjoint
from its own, so the greedy engine commits to the maximal run); the optional
pid group is tried present-first. -/

/-- `\,\sprocess\s(?P<pid>[0-9]+)`: returns the pid digits and the rest. -/
def upstartPidGroup : List Char → Option (List Char × List Char)
  | ',' :: s :: 'p' :: 'r' :: 'o' :: 'c' :: 'e' :: 's' :: 's' :: s2 :: rest =>
    if pyIsSpace s && pyIsSpace s2 then
      let ds := rest.takeWhile Char.isDigit
      let rem := rest.dropWhile Char.isDigit
      if ds = [] then none else some (ds, rem)
    else none
  | _ => none

/-- `\s(?P<goal>\w+)\/(?P<state>\w+)(\,\sprocess\s(?P<pid>[0-9]+))?\s*$`:
what must match after the `name` capture. -/
def upstartAfterName : List Char → Option (String × String × Option String)
  | [] => none
  | c :: rest =>
    if pyIsSpace c then
      let g := rest.takeWhile chIsWord
      let r1 := rest.dropWhile chIsWord
      if g = [] then none
      else
        match r1 with
        | '/' :: r2 =>
          let st := r2.takeWhile chIsWord
          let r3 := r2.dropWhile chIsWord
          if st = [] then none
          else
            match upstartPidGroup r3 with
            | some (ds, r4) =>
              if r4.all pyIsSpace then some (⟨g⟩, ⟨st⟩, some ⟨ds⟩)
              else if r3.all pyIsSpace then some (⟨g⟩, ⟨st⟩, none)
              else none
            | none => if r3.all pyIsSpace then some (⟨g⟩, ⟨st⟩, none) else none
        | _ => none
    else none

/-- Greedy `(?P<name>.*)`: try the name prefix of length `k`, longest first
(`.` never matches a newline). -/
def upstartTryName (cs : List Char) (k : Nat) :
    Option (String × String × String × Option String) :=
  let name := cs.take k
  let attempt :=
    if name.contains '\n' then none
    else (upstartAfterName (cs.drop k)).map
      (fun r => ((⟨name⟩ : String), r.1, r.2.1, r.2.2))
  match attempt with
  | some r => some r
  | none =>
    match k with
    | 0 => none
    | k' + 1 => upstartTryName cs k'

/-- `p.match(line)` for the Upstart pattern: captures
`(name, goal, state, pid?)`. -/
def upstartMatch (line : String) :
    Option (String × String × String × Option String) :=
  match line.toList with
  | [] => upstartTryName [] 0
  | c :: rest =>
    if pyIsSpace c then
      match upstartTryName rest rest.length with
      | some r => some r
      | none => upstartTryName (c :: rest) (c :: rest).length
    else upstartTryName (c :: rest) (c :: rest).length

/-! ## The chkconfig regexes -/

/-- Seven repetitions of `\s+[0-9]:(on|off)` (the `\s+` run is maximal since a
digit is not whitespace; `on`/`off` have incompatible second characters, so the
alternation is committed). Returns the seven captured values. -/
def parseChain : Nat → List Char → Option (List String)
  | 0, _ => some []
  | n + 1, cs =>
    let ws := cs.takeWhile pyIsSpace
    let r1 := cs.dropWhile pyIsSpace
    if ws = [] then none
    else
      match r1 with
      | d :: c2 :: rest =>
        if d.isDigit && c2 = ':' then
          match rest with
          | 'o' :: 'n' :: r2 => (parseChain n r2).map (fun vs => "on" :: vs)
          | 'o' :: 'f' :: 'f' :: r2 => (parseChain n r2).map (fun vs => "off" :: vs)
          | _ => none
        else none
      | _ => none

/-- Lazy `(?P<service>.*?)` of the primary 7-runlevel pattern: try the shortest
service prefix first, extending one character at a time (never across a
newline).  `pre` holds the reversed prefix consumed so far. -/
def chkPrimaryFrom (pre cs : List Char) : Option (String × List String) :=
  match parseChain 7 cs with
  | some vals => some ((⟨pre.reverse⟩ : String), vals)
  | none =>
    match cs with
    | [] => none
    | c :: rest => if c = '\n' then none else chkPrimaryFrom (c :: pre) rest

/-- `p.match(line)` for the primary chkconfig pattern
`(?P<service>.*?)\s+[0-9]:(on|off)\s+ ... [0-9]:(?P<rl6>on|off)`
(anchored at the start only; trailing text is allowed). -/
def chkPrimary (line : String) : Option (String × List String) :=
  chkPrimaryFrom [] line.toList

/-- Does `\s+(on|off)` match at this position? -/
def chkSimpleAt (cs : List Char) : Bool :=
  let ws := cs.takeWhile pyIsSpace
  let r := cs.dropWhile pyIsSpace
  !ws.isEmpty &&
    (match r with
     | 'o' :: 'n' :: _ => true
     | 'o' :: 'f' :: 'f' :: _ => true
     | _ => false)

/-- Would `p_simple.match(line)` succeed, where
`p_simple = (?P<service>.*?)\s+(?P<rl0>on|off)`? -/
def chkSimpleFrom : List Char → Bool
  | [] => false
  | c :: rest =>
    chkSimpleAt (c :: rest) || (if c = '\n' then false else chkSimpleFrom rest)

/-- Boolean match test for the simplified 2-column chkconfig pattern. -/
def chkSimpleMatch (line : String) : Bool :=
  chkSimpleFrom line.toList

/-! ## ServiceScanService (sysv / upstart / chkconfig) -/

/-- One line of the sysv status listing (source lines 59-65): whitespace-split;
lines with fewer than 4 tokens are skipped; `token[1]` is the `+`/`-` marker;
the name is the space-join of `tokens[3:]`. -/
def sysvLineStep (services : SMap) (line : String) : SMap :=
  let line_data := pySplit line
  if line_data.length < 4 then services
  else
    let service_name := joinWith " " (line_data.drop 3)
    let service_state := if line_data.get? 1 = some "+" then "running" else "stopped"
    smInsert services service_name
      { name := service_name, state := .strState service_state, source := "sysv" }

/-- The sysv branch (source lines 57-65). -/
def sysvBranch (env : ScanEnv) (service_path : String) (services : SMap) : SMap :=
  let r := env.run (service_path ++ " --status-all 2>&1 | grep -E \"\\[ (\\+|\\-) \\]\"")
  (pyLines r.2.1).foldl sysvLineStep services

/-- One line of `initctl list` output (source lines 72-81).  Note that the
payload dict built on line 80 has keys `name`, `state`, `goal`, `source`
only: the `pid` local computed on line 79 is never stored. -/
def upstartLineStep (services : SMap) (line : String) : SMap :=
  match upstartMatch line with
  | none => services
  | some (service_name, service_goal, service_state, p) =>
    let _pid := pyOrNone p
    smInsert services service_name
      { name := service_name, state := .strState service_state,
        source := "upstart", goal := some service_goal }

/-- The `pid` local of source line 79 (computed and then dropped: the payload
on line 80 does not include it). -/
def upstartPidLocal (line : String) : Option String :=
  match upstartMatch line with
  | none => none
  | some (_, _, _, p) => pyOrNone p

/-- The record the upstart branch stores for a matching line. -/
def upstartRecordOf (line : String) : Option Record :=
  (upstartMatch line).map
    (fun r => { name := r.1, state := .strState r.2.2.1,
                source := "upstart", goal := some r.2.1 })

/-- The Upstart branch (source lines 68-81): run `initctl list`, strip all
carriage returns, parse each line with the Upstart regex. -/
def upstartBranch (env : ScanEnv) (initctl_path : String) (services : SMap) : SMap :=
  let r := env.run (initctl_path ++ " list")
  let real_stdout := removeCR r.2.1
  (pyLines real_stdout).foldl upstartLineStep services

/-- The chkconfig fallback chain (source lines 88-113): run the bare listing;
if no line matches the primary 7-runlevel pattern, try the simplified
2-column pattern — if that matches some line re-run with `-l --allservices`,
else if the original stderr mentions `--list` re-run with `--list`; the
returned string is the stdout the final parse loop iterates over. -/
def chkStdout (env : ScanEnv) (chkconfig_path : String) : String :=
  let r0 := env.run chkconfig_path
  let stdout0 := r0.2.1
  let match_any := (pyLines stdout0).any (fun l => (chkPrimary l).isSome)
  if match_any then stdout0
  else
    let match_any2 := (pyLines stdout0).any chkSimpleMatch
    if match_any2 then (env.run (chkconfig_path ++ " -l --allservices")).2.1
    else if pyIn "--list" r0.2.2 then (env.run (chkconfig_path ++ " --list")).2.1
    else stdout0

/-- Source line 128: `'root' in stderr` (case-sensitive) `or 'permission' in
stderr.lower() or 'not in sudoers' in stderr.lower()`. -/
def permDenied (stderr : String) : Bool :=
  pyIn "root" stderr || pyIn "permission" (pyLower stderr)
    || pyIn "not in sudoers" (pyLower stderr)

/-- One line of the final chkconfig parse loop (source lines 115-134): on a
primary-pattern match, default state `stopped`; if runlevel 3 is `on`, probe
`service <name> status` — the raw exit code is momentarily held as the state
(`service_state = rc`), then exit code 0 becomes `running`, a
permission-flavoured stderr sets the incomplete flag and skips the service,
anything else becomes `stopped`. -/
def chkLineStep (env : ScanEnv) (service_path : String)
    (acc : SMap × Bool) (line : String) : SMap × Bool :=
  match chkPrimary line with
  | none => acc
  | some (service_name, rls) =>
    if rls.get? 3 = some "on" then
      let pr := env.run (service_path ++ " " ++ service_name ++ " status")
      let service_state : SState := .codeState pr.1
      if stateEqZero service_state then
        (smInsert acc.1 service_name
          { name := service_name, state := .strState "running", source := "sysv" },
         acc.2)
      else if permDenied pr.2.2 then
        (acc.1, true)
      else
        (smInsert acc.1 service_name
          { name := service_name, state := .strState "stopped", source := "sysv" },
         acc.2)
    else
      (smInsert acc.1 service_name
        { name := service_name, state := .strState "stopped", source := "sysv" },
       acc.2)

/-- The chkconfig branch (source lines 83-134). -/
def chkBranch (env : ScanEnv) (service_path chkconfig_path : String)
    (services : SMap) (incomplete : Bool) : SMap × Bool :=
  (pyLines (chkStdout env chkconfig_path)).foldl
    (chkLineStep env service_path) (services, incomplete)

/-- `ServiceScanService.gather_services` (source lines 48-135).  Returns
`none` (Python `None`) when no `service` binary resolves; otherwise the
services dict together with the backend's `incomplete_warning` flag. -/
def serviceScan (env : ScanEnv) : Option (SMap × Bool) :=
  match env.servicePath with
  | none => none
  | some service_path =>
    let services : SMap := []
    let services :=
      match env.chkconfigPath with
      | none => sysvBranch env service_path services
      | some _ => services
    match env.initctlPath, env.chkconfigPath with
    | some initctl_path, none => some (upstartBranch env initctl_path services, false)
    | _, some chkconfig_path => some (chkBranch env service_path chkconfig_path services false)
    | none, none => some (services, false)

/-! ## SystemctlScanService -/

/-- `systemd_enabled` (source lines 140-147): read `/proc/1/comm` (a `none`
models the `IOError` path) and look for a line containing `systemd`. -/
def systemdEnabled (env : ScanEnv) : Bool :=
  match env.procComm with
  | none => false
  | some ls => ls.any (fun l => pyIn "systemd" l)

/-- One line of the systemd unit-file listing (source lines 161-166): exactly
two whitespace tokens, `enabled` maps to `running`, anything else to
`stopped`. -/
def systemdLineStep (services : SMap) (line : String) : SMap :=
  match pySplit line with
  | [a, b] =>
    smInsert services a
      { name := a, state := .strState (if b = "enabled" then "running" else "stopped"),
        source := "systemd" }
  | _ => services

/-- `SystemctlScanService.gather_services` (source lines 149-167). -/
def systemctlScan (env : ScanEnv) : Option (SMap × Bool) :=
  if systemdEnabled env then
    match env.systemctlPath with
    | none => none
    | some systemctl_path =>
      let r := env.run
        (systemctl_path ++ " list-unit-files --type=service | tail -n +2 | head -n -2")
      some ((pyLines r.2.1).foldl systemdLineStep [], false)
  else none

/-! ## main -/

/-- The incomplete flag a backend contributed (`false` for an unavailable
backend, which `main` skips entirely). -/
def flagOf : Option (SMap × Bool) → Bool
  | none => false
  | some (_, b) => b

/-- One iteration of `main`'s backend loop (source lines 175-181):
skip a `None` result, otherwise `all_services |= svc` and fold the
backend's `incomplete_warning` into the global flag. -/
def mainStep (acc : SMap × Bool) (svc : Option (SMap × Bool)) : SMap × Bool :=
  match svc with
  | none => acc
  | some (m, w) => (smUnion acc.1 m, if w then true else acc.2)

/-- The accumulator state after `main`'s backend loop: the merged services
dict and the global incomplete flag.  The backends run in the fixed order
`ServiceScanService`, then `SystemctlScanService` (source line 172). -/
def mainAccum (env : ScanEnv) : SMap × Bool :=
  [serviceScan env, systemctlScan env].foldl mainStep ([], false)

/-- The exact skip message of source line 183. -/
def skipMsg : String :=
  "Failed to find any services. Sometimes this is due to insufficient privileges."

/-- The exact warning message of source line 187. -/
def warnMsg : String :=
  "WARNING: Could not find status for all services. Sometimes this is due to insufficient privileges."

/-- `main` (source lines 170-188): empty accumulator means a skipped report
with `skipMsg`; otherwise a success report carrying `warnMsg` exactly when
the global incomplete flag is set. -/
def mainResult (env : ScanEnv) : ScanReport :=
  let acc := mainAccum env
  if acc.1 = [] then .skipped skipMsg
  else .success acc.1 (if acc.2 then some warnMsg else none)

/-! ## Map lemmas -/

theorem smFind_insert (m : SMap) (k k' : String) (v : Record) :
    smFind (smInsert m k v) k' = if k' = k then some v else smFind m k' := by
  induction m with
  | nil =>
    by_cases h : k' = k
    · subst h; simp [smInsert, smFind]
    · have h2 : ¬ k = k' := fun hh => h hh.symm
      simp [smInsert, smFind, h, h2]
  | cons p rest ih =>
    obtain ⟨a, w⟩ := p
    by_cases hak : a = k
    · subst hak
      by_cases h : k' = a
      · subst h; simp [smInsert, smFind]
      · have h2 : ¬ a = k' := fun hh => h hh.symm
        simp [smInsert, smFind, h, h2]
    · by_cases h2 : a = k'
      · have h3 : ¬ k' = k := fun hh => hak (h2.trans hh)
        simp [smInsert, smFind, hak, h2, h3, ih]
      · by_cases h : k' = k
        · subst h
          simp [smInsert, smFind, hak, h2, ih]
        · simp [smInsert, smFind, hak, h2, h, ih]

theorem mem_smInsert {m : SMap} {k : String} {v : Record} {p : String × Record}
    (h : p ∈ smInsert m k v) : p = (k, v) ∨ p ∈ m := by
  induction m with
  | nil => simpa [smInsert] using h
  | cons q rest ih =>
    obtain ⟨a, w⟩ := q
    simp only [smInsert] at h
    by_cases hak : a = k
    · rw [if_pos hak] at h
      rcases List.mem_cons.mp h with h1 | h2
      · exact Or.inl h1
      · exact Or.inr (List.mem_cons.mpr (Or.inr h2))
    · rw [if_neg hak] at h
      rcases List.mem_cons.mp h with h1 | h2
      · exact Or.inr (List.mem_cons.mpr (Or.inl h1))
      · rcases ih h2 with h3 | h4
        · exact Or.inl h3
        · exact Or.inr (List.mem_cons.mpr (Or.inr h4))

/-- Keys are unique in every map the scanner builds. -/
def smNodup (m : SMap) : Prop :=
  (smKeys m).Nodup

theorem smKeys_insert (m : SMap) (k : String) (v : Record) :
    smKeys (smInsert m k v) =
      if k ∈ smKeys m then smKeys m else smKeys m ++ [k] := by
  induction m with
  | nil => simp [smInsert, smKeys]
  | cons q rest ih =>
    obtain ⟨a, w⟩ := q
    by_cases hak : a = k
    · subst hak; simp [smInsert, smKeys]
    · have hka : ¬ k = a := fun hh => hak hh.symm
      simp only [smInsert, if_neg hak]
      have hkeys : smKeys ((a, w) :: smInsert rest k v) = a :: smKeys (smInsert rest k v) := rfl
      have hkeys2 : smKeys ((a, w) :: rest) = a :: smKeys rest := rfl
      rw [hkeys, hkeys2, ih]
      by_cases hk : k ∈ smKeys rest
      · rw [if_pos hk, if_pos (List.mem_cons.mpr (Or.inr hk))]
      · rw [if_neg hk, if_neg (fun hh => (List.mem_cons.mp hh).elim hka hk)]
        rfl

theorem smNodup_insert {m : SMap} (h : smNodup m) (k : String) (v : Record) :
    smNodup (smInsert m k v) := by
  unfold smNodup at *
  rw [smKeys_insert]
  by_cases hk : k ∈ smKeys m
  · rw [if_pos hk]; exact h
  · rw [if_neg hk]
    have := List.Nodup.concat (l := smKeys m) hk h
    simpa [List.concat_eq_append] using this

theorem smFind_eq_none {m : SMap} {k : String} :
    smFind m k = none ↔ k ∉ smKeys m := by
  induction m with
  | nil => simp [smFind, smKeys]
  | cons q rest ih =>
    obtain ⟨a, w⟩ := q
    by_cases h : a = k
    · subst h; simp [smFind, smKeys]
    · have h2 : ¬ k = a := fun hh => h hh.symm
      simp [smFind, smKeys, h, h2, ih]

theorem smFind_mem {m : SMap} {k : String} {r : Record}
    (h : smFind m k = some r) : (k, r) ∈ m := by
  induction m with
  | nil => simp [smFind] at h
  | cons q rest ih =>
    obtain ⟨a, w⟩ := q
    simp only [smFind] at h
    by_cases hak : a = k
    · rw [if_pos hak] at h
      subst hak
      cases h
      exact List.mem_cons_self _ _
    · rw [if_neg hak] at h
      exact List.mem_cons_of_mem _ (ih h)

theorem smFind_ne_nil {m : SMap} {k : String} {r : Record}
    (h : smFind m k = some r) : m ≠ [] := by
  intro he
  subst he
  simp [smFind] at h

theorem smFind_smUnion_of_none {b : SMap} {k : String} :
    smFind b k = none → ∀ a : SMap, smFind (smUnion a b) k = smFind a k := by
  induction b with
  | nil => intro _ a; rfl
  | cons p rest ih =>
    intro h a
    obtain ⟨bk, bv⟩ := p
    simp only [smFind] at h
    by_cases hbk : bk = k
    · rw [if_pos hbk] at h; cases h
    · rw [if_neg hbk] at h
      show smFind (smUnion (smInsert a bk bv) rest) k = smFind a k
      rw [ih h (smInsert a bk bv), smFind_insert, if_neg (fun hh => hbk hh.symm)]

theorem smFind_smUnion_of_some {b : SMap} {k : String} {v : Record} :
    smNodup b → smFind b k = some v →
      ∀ a : SMap, smFind (smUnion a b) k = some v := by
  induction b with
  | nil => intro _ h; simp [smFind] at h
  | cons p rest ih =>
    intro hn h a
    obtain ⟨bk, bv⟩ := p
    have hcons : bk ∉ smKeys rest ∧ (smKeys rest).Nodup := by
      simpa [smNodup, smKeys] using hn
    simp only [smFind] at h
    by_cases hbk : bk = k
    · rw [if_pos hbk] at h
      subst hbk
      cases h
      have h0 : smFind rest bk = none := smFind_eq_none.mpr hcons.1
      show smFind (smUnion (smInsert a bk v) rest) bk = some v
      rw [smFind_smUnion_of_none h0 (smInsert a bk v), smFind_insert, if_pos rfl]
    · rw [if_neg hbk] at h
      show smFind (smUnion (smInsert a bk bv) rest) k = some v
      exact ih hcons.2 h (smInsert a bk bv)

theorem foldl_preserve {α β : Type} (P : β → Prop) (f : β → α → β) :
    ∀ (l : List α) (b : β),
      (∀ b' a, a ∈ l → P b' → P (f b' a)) → P b → P (l.foldl f b)
  | [], _, _, hb => hb
  | a :: t, b, hf, hb =>
    foldl_preserve P f t (f b a)
      (fun b' x hx => hf b' x (List.mem_cons_of_mem a hx))
      (hf b a (List.mem_cons_self a t) hb)

/-! ## Step-shape lemmas: each parser step either skips a line or stores one
well-formed record. -/

theorem sysvLineStep_shape (services : SMap) (line : String) :
    sysvLineStep services line = services ∨
    ∃ k v, sysvLineStep services line = smInsert services k v ∧ v.name = k ∧
      v.source = "sysv" ∧
      (v.state = SState.strState "running" ∨ v.state = SState.strState "stopped") := by
  simp only [sysvLineStep]
  split
  · exact Or.inl rfl
  · right
    refine ⟨_, _, rfl, rfl, rfl, ?_⟩
    split
    · exact Or.inl rfl
    · exact Or.inr rfl

theorem upstartLineStep_shape (services : SMap) (line : String) :
    upstartLineStep services line = services ∨
    ∃ k v, upstartLineStep services line = smInsert services k v ∧ v.name = k ∧
      v.source = "upstart" := by
  simp only [upstartLineStep]
  split
  · exact Or.inl rfl
  · right
    exact ⟨_, _, rfl, rfl, rfl⟩

theorem systemdLineStep_shape (services : SMap) (line : String) :
    systemdLineStep services line = services ∨
    ∃ k v, systemdLineStep services line = smInsert services k v ∧ v.name = k ∧
      v.source = "systemd" ∧
      (v.state = SState.strState "running" ∨ v.state = SState.strState "stopped") := by
  simp only [systemdLineStep]
  split
  · right
    refine ⟨_, _, rfl, rfl, rfl, ?_⟩
    rename_i a b hsplit
    by_cases h : b = "enabled"
    · rw [if_pos h]; exact Or.inl rfl
    · rw [if_neg h]; exact Or.inr rfl
  · exact Or.inl rfl

theorem chkLineStep_shape (env : ScanEnv) (sp : String) (acc : SMap × Bool)
    (line : String) :
    (chkLineStep env sp acc line).1 = acc.1 ∨
    ∃ k v, (chkLineStep env sp acc line).1 = smInsert acc.1 k v ∧ v.name = k ∧
      v.source = "sysv" ∧
      (v.state = SState.strState "running" ∨ v.state = SState.strState "stopped") := by
  simp only [chkLineStep]
  split
  · exact Or.inl rfl
  · split
    · split
      · exact Or.inr ⟨_, _, rfl, rfl, rfl, Or.inl rfl⟩
      · split
        · exact Or.inl rfl
        · exact Or.inr ⟨_, _, rfl, rfl, rfl, Or.inr rfl⟩
    · exact Or.inr ⟨_, _, rfl, rfl, rfl, Or.inr rfl⟩

theorem chkLineStep_bool (env : ScanEnv) (sp : String) (acc : SMap × Bool)
    (line : String) :
    (chkLineStep env sp acc line).2 = acc.2 ∨ (chkLineStep env sp acc line).2 = true := by
  simp only [chkLineStep]
  split
  · exact Or.inl rfl
  · split
    · split
      · exact Or.inl rfl
      · split
        · exact Or.inr rfl
        · exact Or.inl rfl
    · exact Or.inl rfl

/-! ## chkconfig step case equations -/

theorem chkLineStep_none (env : ScanEnv) (sp : String) (acc : SMap × Bool)
    (line : String) (h : chkPrimary line = none) :
    chkLineStep env sp acc line = acc := by
  simp only [chkLineStep, h]

theorem chkLineStep_running (env : ScanEnv) (sp : String) (acc : SMap × Bool)
    (line : String) (k : String) (rls : List String)
    (h : chkPrimary line = some (k, rls)) (h3 : rls.get? 3 = some "on")
    (hrc : (env.run (sp ++ " " ++ k ++ " status")).1 = 0) :
    chkLineStep env sp acc line =
      (smInsert acc.1 k { name := k, state := .strState "running", source := "sysv" },
       acc.2) := by
  simp only [chkLineStep, h, h3]
  simp [stateEqZero, hrc]

theorem chkLineStep_perm (env : ScanEnv) (sp : String) (acc : SMap × Bool)
    (line : String) (k : String) (rls : List String)
    (h : chkPrimary line = some (k, rls)) (h3 : rls.get? 3 = some "on")
    (hrc : (env.run (sp ++ " " ++ k ++ " status")).1 ≠ 0)
    (hperm : permDenied (env.run (sp ++ " " ++ k ++ " status")).2.2 = true) :
    chkLineStep env sp acc line = (acc.1, true) := by
  simp only [chkLineStep, h, h3]
  simp [stateEqZero, hrc, hperm]

theorem chkLineStep_stopped (env : ScanEnv) (sp : String) (acc : SMap × Bool)
    (line : String) (k : String) (rls : List String)
    (h : chkPrimary line = some (k, rls)) (h3 : rls.get? 3 = some "on")
    (hrc : (env.run (sp ++ " " ++ k ++ " status")).1 ≠ 0)
    (hperm : permDenied (env.run (sp ++ " " ++ k ++ " status")).2.2 = false) :
    chkLineStep env sp acc line =
      (smInsert acc.1 k { name := k, state := .strState "stopped", source := "sysv" },
       acc.2) := by
  simp only [chkLineStep, h, h3]
  simp [stateEqZero, hrc, hperm]

theorem chkLineStep_off (env : ScanEnv) (sp : String) (acc : SMap × Bool)
    (line : String) (k : String) (rls : List String)
    (h : chkPrimary line = some (k, rls)) (h3 : ¬ rls.get? 3 = some "on") :
    chkLineStep env sp acc line =
      (smInsert acc.1 k { name := k, state := .strState "stopped", source := "sysv" },
       acc.2) := by
  simp only [chkLineStep, h]
  rw [if_neg h3]

/-! ## Coherence and key-uniqueness invariants -/

/-- The record stored under a key carries that key as its `name`, and a
recognised `source`. -/
def goodRec (k : String) (v : Record) : Prop :=
  v.name = k ∧ (v.source = "sysv" ∨ v.source = "upstart" ∨ v.source = "systemd")

/-- Every entry of the map is well-formed. -/
def smCoherent (m : SMap) : Prop :=
  ∀ p ∈ m, goodRec p.1 p.2

theorem smCoherent_nil : smCoherent [] := by
  intro p hp
  simp at hp

theorem smCoherent_insert {m : SMap} {k : String} {v : Record}
    (hm : smCoherent m) (hv : goodRec k v) : smCoherent (smInsert m k v) := by
  intro p hp
  rcases mem_smInsert hp with h | h
  · subst h; exact hv
  · exact hm p h

theorem smCoherent_find {m : SMap} (hm : smCoherent m) {k : String} {r : Record}
    (h : smFind m k = some r) : goodRec k r :=
  hm (k, r) (smFind_mem h)

theorem smCoherent_smUnion {a b : SMap} (ha : smCoherent a) (hb : smCoherent b) :
    smCoherent (smUnion a b) := by
  unfold smUnion
  refine foldl_preserve smCoherent _ b a (fun b' p hp hb' => ?_) ha
  exact smCoherent_insert hb' (hb p hp)

theorem foldl_smCoherent {α : Type} (f : SMap → α → SMap)
    (hs : ∀ m x, f m x = m ∨ ∃ k v, f m x = smInsert m k v ∧ goodRec k v)
    (l : List α) {m : SMap} (hm : smCoherent m) : smCoherent (l.foldl f m) := by
  refine foldl_preserve smCoherent f l m (fun b' a _ hb => ?_) hm
  rcases hs b' a with h | ⟨k, v, he, hg⟩
  · rw [h]; exact hb
  · rw [he]; exact smCoherent_insert hb hg

theorem foldl_smNodup {α : Type} (f : SMap → α → SMap)
    (hs : ∀ m x, f m x = m ∨ ∃ k v, f m x = smInsert m k v)
    (l : List α) {m : SMap} (hm : smNodup m) : smNodup (l.foldl f m) := by
  refine foldl_preserve smNodup f l m (fun b' a _ hb => ?_) hm
  rcases hs b' a with h | ⟨k, v, he⟩
  · rw [h]; exact hb
  · rw [he]; exact smNodup_insert hb k v

theorem smNodup_nil : smNodup [] := List.nodup_nil

theorem sysvBranch_coherent (env : ScanEnv) (sp : String) {s : SMap}
    (hs : smCoherent s) : smCoherent (sysvBranch env sp s) := by
  unfold sysvBranch
  refine foldl_smCoherent sysvLineStep (fun m x => ?_) _ hs
  rcases sysvLineStep_shape m x with h | ⟨k, v, he, h1, h2, _⟩
  · exact Or.inl h
  · exact Or.inr ⟨k, v, he, h1, Or.inl h2⟩

theorem upstartBranch_coherent (env : ScanEnv) (ip : String) {s : SMap}
    (hs : smCoherent s) : smCoherent (upstartBranch env ip s) := by
  unfold upstartBranch
  refine foldl_smCoherent upstartLineStep (fun m x => ?_) _ hs
  rcases upstartLineStep_shape m x with h | ⟨k, v, he, h1, h2⟩
  · exact Or.inl h
  · exact Or.inr ⟨k, v, he, h1, Or.inr (Or.inl h2)⟩

theorem chkFold_coherent (env : ScanEnv) (sp : String) (L : List String)
    (acc : SMap × Bool) (h : smCoherent acc.1) :
    smCoherent ((L.foldl (chkLineStep env sp) acc)).1 := by
  refine foldl_preserve (fun p => smCoherent p.1) (chkLineStep env sp) L acc
    (fun b' a _ hb => ?_) h
  rcases chkLineStep_shape env sp b' a with h1 | ⟨k, v, he, hn, hsrc, _⟩
  · rw [h1]; exact hb
  · rw [he]; exact smCoherent_insert hb ⟨hn, Or.inl hsrc⟩

theorem chkBranch_coherent (env : ScanEnv) (sp ck : String) {s : SMap} {b : Bool}
    (hs : smCoherent s) : smCoherent (chkBranch env sp ck s b).1 :=
  chkFold_coherent env sp _ (s, b) hs

theorem chkFold_nodup (env : ScanEnv) (sp : String) (L : List String)
    (acc : SMap × Bool) (h : smNodup acc.1) :
    smNodup ((L.foldl (chkLineStep env sp) acc)).1 := by
  refine foldl_preserve (fun p => smNodup p.1) (chkLineStep env sp) L acc
    (fun b' a _ hb => ?_) h
  rcases chkLineStep_shape env sp b' a with h1 | ⟨k, v, he, _, _, _⟩
  · rw [h1]; exact hb
  · rw [he]; exact smNodup_insert hb k v

theorem systemdFold_nodup (L : List String) {s : SMap} (hs : smNodup s) :
    smNodup (L.foldl systemdLineStep s) := by
  refine foldl_smNodup systemdLineStep (fun m x => ?_) _ hs
  rcases systemdLineStep_shape m x with h | ⟨k, v, he, _, _, _⟩
  · exact Or.inl h
  · exact Or.inr ⟨k, v, he⟩

theorem systemdFold_coherent (L : List String) {s : SMap} (hs : smCoherent s) :
    smCoherent (L.foldl systemdLineStep s) := by
  refine foldl_smCoherent systemdLineStep (fun m x => ?_) _ hs
  rcases systemdLineStep_shape m x with h | ⟨k, v, he, h1, h2, _⟩
  · exact Or.inl h
  · exact Or.inr ⟨k, v, he, h1, Or.inr (Or.inr h2)⟩

/-! ## Gather-level invariants -/

theorem serviceScan_coherent {env : ScanEnv} {m : SMap} {w : Bool}
    (h : serviceScan env = some (m, w)) : smCoherent m := by
  unfold serviceScan at h
  cases hsp : env.servicePath with
  | none => rw [hsp] at h; cases h
  | some sp =>
    rw [hsp] at h
    cases hck : env.chkconfigPath with
    | none =>
      rw [hck] at h
      cases hip : env.initctlPath with
      | none =>
        rw [hip] at h
        simp only at h
        cases h
        exact sysvBranch_coherent env sp smCoherent_nil
      | some ip =>
        rw [hip] at h
        simp only at h
        cases h
        exact upstartBranch_coherent env ip (sysvBranch_coherent env sp smCoherent_nil)
    | some ck =>
      rw [hck] at h
      cases hip : env.initctlPath with
      | none =>
        rw [hip] at h
        simp only at h
        have h1 := congrArg Prod.fst (Option.some.inj h)
        simp only at h1
        rw [← h1]
        exact chkBranch_coherent env sp ck smCoherent_nil
      | some ip =>
        rw [hip] at h
        simp only at h
        have h1 := congrArg Prod.fst (Option.some.inj h)
        simp only at h1
        rw [← h1]
        exact chkBranch_coherent env sp ck smCoherent_nil

theorem systemctlScan_coherent {env : ScanEnv} {m : SMap} {w : Bool}
    (h : systemctlScan env = some (m, w)) : smCoherent m := by
  unfold systemctlScan at h
  by_cases hs : systemdEnabled env
  · rw [if_pos hs] at h
    cases hsy : env.systemctlPath with
    | none => rw [hsy] at h; cases h
    | some sy =>
      rw [hsy] at h
      simp only at h
      cases h
      exact systemdFold_coherent _ smCoherent_nil
  · rw [if_neg hs] at h; cases h

theorem systemctlScan_nodup {env : ScanEnv} {m : SMap} {w : Bool}
    (h : systemctlScan env = some (m, w)) : smNodup m := by
  unfold systemctlScan at h
  by_cases hs : systemdEnabled env
  · rw [if_pos hs] at h
    cases hsy : env.systemctlPath with
    | none => rw [hsy] at h; cases h
    | some sy =>
      rw [hsy] at h
      simp only at h
      cases h
      exact systemdFold_nodup _ smNodup_nil
  · rw [if_neg hs] at h; cases h

/-- With both a `service` binary and a chkconfig binary present, the first
scanner is exactly the chkconfig branch started from an empty dict. -/
theorem serviceScan_chk {env : ScanEnv} {sp ck : String}
    (hsp : env.servicePath = some sp) (hck : env.chkconfigPath = some ck) :
    serviceScan env = some (chkBranch env sp ck [] false) := by
  unfold serviceScan
  rw [hsp, hck]
  cases hip : env.initctlPath <;> rfl

/-! ## chkconfig fold lemmas -/

/-- Does the final-parse loop line name service `k0`? -/
def namesLine (k0 : String) (line : String) : Bool :=
  match chkPrimary line with
  | none => false
  | some (k, _) => k = k0

/-- Line-level condition: if this line names `bad`, its probe takes the
permission-skip path (runlevel 3 on, non-zero exit, permission stderr). -/
def permSkipLine (env : ScanEnv) (sp bad line : String) : Bool :=
  match chkPrimary line with
  | none => true
  | some (k, rls) =>
    if k = bad then
      rls.get? 3 == some "on"
        && (env.run (sp ++ " " ++ bad ++ " status")).1 != 0
        && permDenied (env.run (sp ++ " " ++ bad ++ " status")).2.2
    else true

/-- Line-level condition: if this line names `sib`, its probe runs cleanly
(runlevel 3 on, exit code 0). -/
def cleanRunLine (env : ScanEnv) (sp sib line : String) : Bool :=
  match chkPrimary line with
  | none => true
  | some (k, rls) =>
    if k = sib then
      rls.get? 3 == some "on" && (env.run (sp ++ " " ++ sib ++ " status")).1 == 0
    else true

theorem chkLineStep_find_other (env : ScanEnv) (sp : String) (acc : SMap × Bool)
    (line bad : String) (hno : namesLine bad line = false) :
    smFind (chkLineStep env sp acc line).1 bad = smFind acc.1 bad := by
  cases hp : chkPrimary line with
  | none => rw [chkLineStep_none env sp acc line hp]
  | some pr =>
    obtain ⟨k, rls⟩ := pr
    have hk : ¬ k = bad := by
      unfold namesLine at hno
      rw [hp] at hno
      simpa using hno
    have hfind : ∀ v : Record, smFind (smInsert acc.1 k v) bad = smFind acc.1 bad := by
      intro v
      rw [smFind_insert, if_neg (fun hh => hk hh.symm)]
    by_cases h3 : rls.get? 3 = some "on"
    · by_cases hrc : (env.run (sp ++ " " ++ k ++ " status")).1 = 0
      · rw [chkLineStep_running env sp acc line k rls hp h3 hrc]
        exact hfind _
      · by_cases hperm : permDenied (env.run (sp ++ " " ++ k ++ " status")).2.2 = true
        · rw [chkLineStep_perm env sp acc line k rls hp h3 hrc hperm]
        · rw [chkLineStep_stopped env sp acc line k rls hp h3 hrc
            (Bool.not_eq_true _ ▸ hperm)]
          exact hfind _
    · rw [chkLineStep_off env sp acc line k rls hp h3]
      exact hfind _

theorem chkLineStep_find_bad (env : ScanEnv) (sp : String) (acc : SMap × Bool)
    (line bad : String) (hps : permSkipLine env sp bad line = true) :
    smFind (chkLineStep env sp acc line).1 bad = smFind acc.1 bad := by
  cases hn : namesLine bad line with
  | false => exact chkLineStep_find_other env sp acc line bad hn
  | true =>
    cases hp : chkPrimary line with
    | none => rw [chkLineStep_none env sp acc line hp]
    | some pr =>
      obtain ⟨k, rls⟩ := pr
      have hk : k = bad := by
        unfold namesLine at hn
        rw [hp] at hn
        simpa using hn
      subst hk
      unfold permSkipLine at hps
      rw [hp] at hps
      simp only [eq_self_iff_true, if_true, Bool.and_eq_true, beq_iff_eq,
        bne_iff_ne] at hps
      rw [chkLineStep_perm env sp acc line k rls hp hps.1.1 hps.1.2 hps.2]

theorem chkLineStep_find_sib (env : ScanEnv) (sp : String) (acc : SMap × Bool)
    (line sib : String) (hn : namesLine sib line = true)
    (hcl : cleanRunLine env sp sib line = true) :
    smFind (chkLineStep env sp acc line).1 sib =
      some { name := sib, state := .strState "running", source := "sysv" } := by
  cases hp : chkPrimary line with
  | none =>
    unfold namesLine at hn
    rw [hp] at hn
    cases hn
  | some pr =>
    obtain ⟨k, rls⟩ := pr
    have hk : k = sib := by
      unfold namesLine at hn
      rw [hp] at hn
      simpa using hn
    subst hk
    unfold cleanRunLine at hcl
    rw [hp] at hcl
    simp only [eq_self_iff_true, if_true, Bool.and_eq_true, beq_iff_eq] at hcl
    rw [chkLineStep_running env sp acc line k rls hp hcl.1 hcl.2]
    show smFind (smInsert acc.1 k _) k = _
    rw [smFind_insert, if_pos rfl]

theorem chkFold_skip (env : ScanEnv) (sp bad : String) (L : List String) :
    ∀ acc : SMap × Bool, L.all (permSkipLine env sp bad) = true →
      smFind (L.foldl (chkLineStep env sp) acc).1 bad = smFind acc.1 bad := by
  induction L with
  | nil => intro acc _; rfl
  | cons line t ih =>
    intro acc h
    rw [List.all_cons, Bool.and_eq_true] at h
    show smFind ((t.foldl (chkLineStep env sp) (chkLineStep env sp acc line))).1 bad = _
    rw [ih (chkLineStep env sp acc line) h.2]
    exact chkLineStep_find_bad env sp acc line bad h.1

theorem chkFold_stable (env : ScanEnv) (sp sib : String) (L : List String) :
    ∀ acc : SMap × Bool, L.all (cleanRunLine env sp sib) = true →
      smFind acc.1 sib =
        some { name := sib, state := .strState "running", source := "sysv" } →
      smFind (L.foldl (chkLineStep env sp) acc).1 sib =
        some { name := sib, state := .strState "running", source := "sysv" } := by
  induction L with
  | nil => intro acc _ hacc; exact hacc
  | cons line t ih =>
    intro acc h hacc
    rw [List.all_cons, Bool.and_eq_true] at h
    show smFind ((t.foldl (chkLineStep env sp) (chkLineStep env sp acc line))).1 sib = _
    refine ih (chkLineStep env sp acc line) h.2 ?_
    cases hn : namesLine sib line with
    | false => rw [chkLineStep_find_other env sp acc line sib hn]; exact hacc
    | true => exact chkLineStep_find_sib env sp acc line sib hn h.1

theorem chkFold_clean (env : ScanEnv) (sp sib : String) (L : List String) :
    ∀ acc : SMap × Bool, L.all (cleanRunLine env sp sib) = true →
      L.any (namesLine sib) = true →
      smFind (L.foldl (chkLineStep env sp) acc).1 sib =
        some { name := sib, state := .strState "running", source := "sysv" } := by
  induction L with
  | nil => intro acc _ hany; cases hany
  | cons line t ih =>
    intro acc h hany
    rw [List.all_cons, Bool.and_eq_true] at h
    show smFind ((t.foldl (chkLineStep env sp) (chkLineStep env sp acc line))).1 sib = _
    cases hn : namesLine sib line with
    | true =>
      exact chkFold_stable env sp sib t (chkLineStep env sp acc line) h.2
        (chkLineStep_find_sib env sp acc line sib hn h.1)
    | false =>
      rw [List.any_cons, Bool.or_eq_true] at hany
      rcases hany with h1 | h2
      · rw [hn] at h1; cases h1
      · exact ih (chkLineStep env sp acc line) h.2 h2

theorem chkFold_true (env : ScanEnv) (sp : String) (L : List String) :
    ∀ acc : SMap × Bool, acc.2 = true →
      (L.foldl (chkLineStep env sp) acc).2 = true := by
  induction L with
  | nil => intro acc h; exact h
  | cons line t ih =>
    intro acc h
    show ((t.foldl (chkLineStep env sp) (chkLineStep env sp acc line))).2 = true
    refine ih (chkLineStep env sp acc line) ?_
    rcases chkLineStep_bool env sp acc line with h1 | h1
    · rw [h1]; exact h
    · exact h1

theorem chkFold_warn (env : ScanEnv) (sp bad : String) (L : List String) :
    ∀ acc : SMap × Bool, L.all (permSkipLine env sp bad) = true →
      L.any (namesLine bad) = true →
      (L.foldl (chkLineStep env sp) acc).2 = true := by
  induction L with
  | nil => intro acc _ hany; cases hany
  | cons line t ih =>
    intro acc h hany
    rw [List.all_cons, Bool.and_eq_true] at h
    show ((t.foldl (chkLineStep env sp) (chkLineStep env sp acc line))).2 = true
    cases hn : namesLine bad line with
    | true =>
      refine chkFold_true env sp t (chkLineStep env sp acc line) ?_
      cases hp : chkPrimary line with
      | none =>
        unfold namesLine at hn
        rw [hp] at hn
        cases hn
      | some pr =>
        obtain ⟨k, rls⟩ := pr
        have hk : k = bad := by
          unfold namesLine at hn
          rw [hp] at hn
          simpa using hn
        subst hk
        have hps := h.1
        unfold permSkipLine at hps
        rw [hp] at hps
        simp only [eq_self_iff_true, if_true, Bool.and_eq_true, beq_iff_eq,
          bne_iff_ne] at hps
        rw [chkLineStep_perm env sp acc line k rls hp hps.1.1 hps.1.2 hps.2]
    | false =>
      rw [List.any_cons, Bool.or_eq_true] at hany
      rcases hany with h1 | h2
      · rw [hn] at h1; cases h1
      · exact ih (chkLineStep env sp acc line) h.2 h2

theorem chkFold_states (env : ScanEnv) (sp : String) (L : List String)
    (acc : SMap × Bool)
    (hacc : ∀ k r, smFind acc.1 k = some r →
      r.state = SState.strState "running" ∨ r.state = SState.strState "stopped") :
    ∀ k r, smFind (L.foldl (chkLineStep env sp) acc).1 k = some r →
      r.state = SState.strState "running" ∨ r.state = SState.strState "stopped" := by
  refine foldl_preserve
    (fun p => ∀ k r, smFind p.1 k = some r →
      r.state = SState.strState "running" ∨ r.state = SState.strState "stopped")
    (chkLineStep env sp) L acc (fun b' a _ hb => ?_) hacc
  rcases chkLineStep_shape env sp b' a with h1 | ⟨k0, v, he, _, _, hst⟩
  · rw [h1]; exact hb
  · rw [he]
    intro k r hf
    rw [smFind_insert] at hf
    by_cases hk : k = k0
    · rw [if_pos hk] at hf
      cases hf
      exact hst
    · rw [if_neg hk] at hf
      exact hb k r hf

/-! ## Upstart matcher properties -/

theorem upstartAfterName_goal {cs : List Char} {g st : String} {p : Option String}
    (h : upstartAfterName cs = some (g, st, p)) : g ≠ "" := by
  cases cs with
  | nil => exact absurd h (by simp [upstartAfterName])
  | cons c rest =>
    simp only [upstartAfterName] at h
    split at h
    · split at h
      · cases h
      · rename_i hg
        split at h
        · split at h
          · cases h
          · split at h
            · split at h
              · cases h
                intro he
                exact hg (by simpa using congrArg String.data he)
              · split at h
                · cases h
                  intro he
                  exact hg (by simpa using congrArg String.data he)
                · cases h
            · split at h
              · cases h
                intro he
                exact hg (by simpa using congrArg String.data he)
              · cases h
        · cases h
    · cases h

theorem upstartTryName_goal (cs : List Char) :
    ∀ (k : Nat) (n g st : String) (p : Option String),
      upstartTryName cs k = some (n, g, st, p) → g ≠ "" := by
  intro k
  induction k with
  | zero =>
    intro n g st p h
    simp only [upstartTryName] at h
    split at h
    · rename_i r hr
      cases h
      split at hr
      · cases hr
      · rcases Option.map_eq_some'.mp hr with ⟨⟨g0, st0, p0⟩, ha, he⟩
        cases he
        exact upstartAfterName_goal ha
    · cases h
  | succ k' ih =>
    intro n g st p h
    simp only [upstartTryName] at h
    split at h
    · rename_i r hr
      cases h
      split at hr
      · cases hr
      · rcases Option.map_eq_some'.mp hr with ⟨⟨g0, st0, p0⟩, ha, he⟩
        cases he
        exact upstartAfterName_goal ha
    · exact ih n g st p h

theorem upstartMatch_goal {line : String} {n g st : String} {p : Option String}
    (h : upstartMatch line = some (n, g, st, p)) : g ≠ "" := by
  unfold upstartMatch at h
  split at h
  · exact upstartTryName_goal [] 0 n g st p h
  · rename_i c rest heq
    split at h
    · split at h
      · rename_i r hr
        cases h
        exact upstartTryName_goal rest rest.length n g st p hr
      · exact upstartTryName_goal (c :: rest) (c :: rest).length n g st p h
    · exact upstartTryName_goal (c :: rest) (c :: rest).length n g st p h

/-! ## C2 -/

/-- C2 counterexample: for the Upstart line
`"ssh start/running, process 1234"` the regex does capture pid `1234` and the
`pid` local of source line 79 holds it, but the payload dict built on source
line 80 has keys `name`, `state`, `goal`, `source` only — the emitted record
carries no pid, contradicting the claimed record
`{name: ssh, goal: start, state: running, pid: 1234, source: upstart}`. -/
theorem upstart_pid_dropped_cex :
    upstartMatch "ssh start/running, process 1234" =
      some ("ssh", "start", "running", some "1234") ∧
    upstartPidLocal "ssh start/running, process 1234" = some "1234" ∧
    upstartRecordOf "ssh start/running, process 1234" =
      some { name := "ssh", state := .strState "running", source := "upstart",
             goal := some "start", pid := none } ∧
    upstartRecordOf "ssh start/running, process 1234" ≠
      some { name := "ssh", state := .strState "running", source := "upstart",
             goal := some "start", pid := some "1234" } := by
  refine ⟨by decide, by decide, by decide, by decide⟩

/-- C2 (amended): for every line matched by the Upstart regex, the emitted
record has `source = upstart`, `name` and `state` taken verbatim from the
captures, `goal` populated (a non-empty capture), and no `pid` field — the
pid capture is extracted into a local (`upstartPidLocal`) but dropped from
the payload. -/
theorem upstart_parse_amended (line n g st : String) (p : Option String)
    (h : upstartMatch line = some (n, g, st, p)) :
    upstartRecordOf line =
      some { name := n, state := .strState st, source := "upstart",
             goal := some g, pid := none } ∧
    g ≠ "" ∧
    upstartPidLocal line = pyOrNone p := by
  refine ⟨?_, upstartMatch_goal h, ?_⟩
  · unfold upstartRecordOf
    rw [h]
    rfl
  · unfold upstartPidLocal
    rw [h]

/-- C2 witness: the amended theorem applied to the spec's concrete line. -/
theorem upstart_parse_amended_witness :
    upstartRecordOf "ssh start/running, process 1234" =
      some { name := "ssh", state := .strState "running", source := "upstart",
             goal := some "start", pid := none } ∧
    ("start" : String) ≠ "" ∧
    upstartPidLocal "ssh start/running, process 1234" = pyOrNone (some "1234") :=
  upstart_parse_amended "ssh start/running, process 1234" "ssh" "start" "running"
    (some "1234") (by decide)

/-! ## serviceScan branch equations -/

theorem serviceScan_none {env : ScanEnv} (h : env.servicePath = none) :
    serviceScan env = none := by
  unfold serviceScan
  rw [h]

theorem serviceScan_upstart {env : ScanEnv} {sp ip : String}
    (hsp : env.servicePath = some sp) (hip : env.initctlPath = some ip)
    (hck : env.chkconfigPath = none) :
    serviceScan env =
      some (upstartBranch env ip (sysvBranch env sp []), false) := by
  unfold serviceScan
  rw [hsp, hck, hip]

theorem serviceScan_sysv {env : ScanEnv} {sp : String}
    (hsp : env.servicePath = some sp) (hip : env.initctlPath = none)
    (hck : env.chkconfigPath = none) :
    serviceScan env = some (sysvBranch env sp [], false) := by
  unfold serviceScan
  rw [hsp, hck, hip]

/-! ## Concrete hosts for the witnesses -/

/-- A host with no resolvable binaries and no `/proc/1/comm`. -/
def envEmpty : ScanEnv :=
  { servicePath := none, initctlPath := none, chkconfigPath := none,
    systemctlPath := none, procComm := none, run := fun _ => (1, "", "") }

/-- An Upstart-flavoured host missing only the `service` binary. -/
def envNoService : ScanEnv :=
  { servicePath := none, initctlPath := some "/sbin/initctl",
    chkconfigPath := none, systemctlPath := none, procComm := none,
    run := fun c =>
      if c = "/sbin/initctl list" then
        (0, "ssh start/running, process 1234", "")
      else (1, "", "") }

/-- The same host with the `service` binary present. -/
def envWithService : ScanEnv :=
  { envNoService with servicePath := some "/sbin/service" }

/-- A host where sysv, upstart and systemd all apply and both scanners
produce a record named `ssh`. -/
def envFull : ScanEnv :=
  { servicePath := some "/sbin/service", initctlPath := some "/sbin/initctl",
    chkconfigPath := none, systemctlPath := some "/usr/bin/systemctl",
    procComm := some ["systemd\n"],
    run := fun c =>
      if c = "/sbin/service --status-all 2>&1 | grep -E \"\\[ (\\+|\\-) \\]\"" then
        (0, "[ + ]  acpid\n[ - ]  ssh", "")
      else if c = "/sbin/initctl list" then
        (0, "ssh start/running, process 1234", "")
      else if c = "/usr/bin/systemctl list-unit-files --type=service | tail -n +2 | head -n -2" then
        (0, "ssh.service enabled\nssh disabled", "")
      else (1, "", "") }

/-- A chkconfig host: three listed services; `svcbad`'s status probe fails
with a sudoers complaint, `svcgood`'s probe exits 0, `svcoff` is off at
runlevel 3.  systemd does not apply. -/
def envChk : ScanEnv :=
  { servicePath := some "/sbin/service", initctlPath := none,
    chkconfigPath := some "/sbin/chkconfig", systemctlPath := none,
    procComm := none,
    run := fun c =>
      if c = "/sbin/chkconfig" then
        (0, String.intercalate "\n"
          ["svcgood  0:off 1:off 2:on 3:on 4:on 5:on 6:off",
           "svcbad  0:off 1:off 2:on 3:on 4:on 5:on 6:off",
           "svcoff  0:off 1:off 2:off 3:off 4:off 5:off 6:off"], "")
      else if c = "/sbin/service svcgood status" then
        (0, "svcgood is running", "")
      else if c = "/sbin/service svcbad status" then
        (1, "", "user is not in sudoers file")
      else (1, "", "") }

/-- A chkconfig host whose bare listing is the simplified 2-column format,
exercising the `-l --allservices` fallback re-invocation. -/
def envFb : ScanEnv :=
  { servicePath := some "/sbin/service", initctlPath := none,
    chkconfigPath := some "/sbin/chkconfig", systemctlPath := none,
    procComm := none,
    run := fun c =>
      if c = "/sbin/chkconfig" then (0, "svca  on\nsvcb  off", "")
      else if c = "/sbin/chkconfig -l --allservices" then
        (0, "svca  0:off 1:off 2:on 3:off 4:on 5:on 6:off", "")
      else (1, "", "") }

/-! ## C3 -/

/-- C3 counterexample: two hosts identical except for the presence of the
`service` binary; `initctl` resolves and no chkconfig binary exists on both.
With `service` present the scanner runs the Upstart branch and records `ssh`;
with `service` absent `gather_services` returns `None` at source lines 50-52,
so the Upstart backend never runs — its applicability does depend on the
`service` binary, contradicting the claim. -/
theorem upstart_requires_service_cex :
    envNoService.initctlPath = some "/sbin/initctl" ∧
    envNoService.chkconfigPath = none ∧
    envWithService = { envNoService with servicePath := some "/sbin/service" } ∧
    serviceScan envNoService = none ∧
    serviceScan envWithService =
      some ([("ssh", { name := "ssh", state := .strState "running",
                       source := "upstart", goal := some "start" })], false) := by
  refine ⟨rfl, rfl, rfl, rfl, by decide⟩

/-- C3 (amended): applicability as the code implements it.  If no
`service`-equivalent binary resolves, the whole first scanner returns
`Unavailable` regardless of `initctl`/chkconfig presence.  Given a `service`
binary: the Upstart branch runs exactly when `initctl` resolves and no
chkconfig binary exists; the chkconfig branch runs exactly when a chkconfig
binary exists (taking precedence over Upstart); with neither, only the sysv
listing contributes. -/
theorem backend_applicability_amended (env : ScanEnv) :
    (env.servicePath = none → serviceScan env = none) ∧
    (∀ sp, env.servicePath = some sp →
      (∀ ip, env.initctlPath = some ip → env.chkconfigPath = none →
        serviceScan env =
          some (upstartBranch env ip (sysvBranch env sp []), false)) ∧
      (∀ ck, env.chkconfigPath = some ck →
        serviceScan env = some (chkBranch env sp ck [] false)) ∧
      (env.initctlPath = none → env.chkconfigPath = none →
        serviceScan env = some (sysvBranch env sp [], false))) := by
  refine ⟨fun h => serviceScan_none h, fun sp hsp => ⟨?_, ?_, ?_⟩⟩
  · intro ip hip hck
    exact serviceScan_upstart hsp hip hck
  · intro ck hck
    exact serviceScan_chk hsp hck
  · intro hip hck
    exact serviceScan_sysv hsp hip hck

/-- C3 witness: the amended theorem applied to the Upstart host. -/
theorem backend_applicability_amended_witness :
    serviceScan envWithService =
      some (upstartBranch envWithService "/sbin/initctl"
        (sysvBranch envWithService "/sbin/service" []), false) :=
  ((backend_applicability_amended envWithService).2 "/sbin/service" rfl).1
    "/sbin/initctl" rfl rfl

/-! ## C1 -/

/-- C1: when both scanners produce a record for the same service name, the
final services map holds the systemd scanner's record in full — the backends
are merged in the fixed order first-scanner-then-systemd with key-overwrite
union (`all_services |= svc`) and no field-level merge. -/
theorem merge_systemd_wins (env : ScanEnv) (k : String) (r1 r2 : Record)
    (m1 m2 : SMap) (w1 w2 : Bool)
    (hA : serviceScan env = some (m1, w1))
    (hB : systemctlScan env = some (m2, w2))
    (_h1 : smFind m1 k = some r1)
    (h2 : smFind m2 k = some r2) :
    mainResult env = .success (mainAccum env).1
      (if (mainAccum env).2 then some warnMsg else none) ∧
    smFind (mainAccum env).1 k = some r2 := by
  have hacc : (mainAccum env).1 = smUnion (smUnion [] m1) m2 := by
    unfold mainAccum
    rw [hA, hB]
    rfl
  have hf : smFind (mainAccum env).1 k = some r2 := by
    rw [hacc]
    exact smFind_smUnion_of_some (systemctlScan_nodup hB) h2 (smUnion [] m1)
  have hne : (mainAccum env).1 ≠ [] := smFind_ne_nil hf
  refine ⟨?_, hf⟩
  simp only [mainResult]
  rw [if_neg hne]

/-- C1 witness: on `envFull`, `ssh` is recorded by both scanners (as an
upstart `running` record, then a systemd `stopped` record); the final map
holds the systemd record in full. -/
theorem merge_systemd_wins_witness :
    mainResult envFull = .success (mainAccum envFull).1
      (if (mainAccum envFull).2 then some warnMsg else none) ∧
    smFind (mainAccum envFull).1 "ssh" =
      some { name := "ssh", state := .strState "stopped", source := "systemd" } :=
  merge_systemd_wins envFull "ssh"
    { name := "ssh", state := .strState "running", source := "upstart",
      goal := some "start" }
    { name := "ssh", state := .strState "stopped", source := "systemd" }
    [("acpid", { name := "acpid", state := .strState "running", source := "sysv" }),
     ("ssh", { name := "ssh", state := .strState "running", source := "upstart",
               goal := some "start" })]
    [("ssh.service", { name := "ssh.service", state := .strState "running",
                       source := "systemd" }),
     ("ssh", { name := "ssh", state := .strState "stopped", source := "systemd" })]
    false false (by decide) (by decide) (by decide) (by decide)

/-! ## C4 -/

/-- C4: a chkconfig-probed service whose status probe exits non-zero with a
permission-flavoured stderr (`root` / `permission` / `not in sudoers`) is
omitted from the final map with no guessed state, the backend's incomplete
flag is set so the report carries the partial-results warning, and the scan
continues: a sibling service whose probe exits 0 is still present with state
`running`. -/
theorem chk_permission_skip (env : ScanEnv) (sp ck bad sib : String)
    (m : SMap) (w : Bool)
    (hsp : env.servicePath = some sp) (hck : env.chkconfigPath = some ck)
    (hg : serviceScan env = some (m, w))
    (hbadAll : (pyLines (chkStdout env ck)).all (permSkipLine env sp bad) = true)
    (hbadEx : (pyLines (chkStdout env ck)).any (namesLine bad) = true)
    (hsibAll : (pyLines (chkStdout env ck)).all (cleanRunLine env sp sib) = true)
    (hsibEx : (pyLines (chkStdout env ck)).any (namesLine sib) = true)
    (hsd : systemctlScan env = none) :
    smFind m bad = none ∧
    smFind m sib =
      some { name := sib, state := .strState "running", source := "sysv" } ∧
    w = true ∧
    mainResult env = .success (mainAccum env).1 (some warnMsg) ∧
    smFind (mainAccum env).1 bad = none ∧
    smFind (mainAccum env).1 sib =
      some { name := sib, state := .strState "running", source := "sysv" } := by
  have heq := serviceScan_chk hsp hck
  rw [heq] at hg
  have hmw := Option.some.inj hg
  have hm1 : (chkBranch env sp ck [] false).1 = m := congrArg Prod.fst hmw
  have hw1 : (chkBranch env sp ck [] false).2 = w := congrArg Prod.snd hmw
  have hbadNone : smFind m bad = none := by
    rw [← hm1]
    unfold chkBranch
    rw [chkFold_skip env sp bad (pyLines (chkStdout env ck)) ([], false) hbadAll]
    rfl
  have hsibSome : smFind m sib =
      some { name := sib, state := .strState "running", source := "sysv" } := by
    rw [← hm1]
    unfold chkBranch
    exact chkFold_clean env sp sib (pyLines (chkStdout env ck)) ([], false)
      hsibAll hsibEx
  have hwT : w = true := by
    rw [← hw1]
    unfold chkBranch
    exact chkFold_warn env sp bad (pyLines (chkStdout env ck)) ([], false)
      hbadAll hbadEx
  have hnd : smNodup m := by
    rw [← hm1]
    unfold chkBranch
    exact chkFold_nodup env sp (pyLines (chkStdout env ck)) ([], false) smNodup_nil
  have hg' : serviceScan env = some (m, w) := heq.trans (congrArg some hmw)
  have haccm : (mainAccum env).1 = smUnion [] m := by
    unfold mainAccum
    rw [hg', hsd]
    rfl
  have haccw : (mainAccum env).2 = true := by
    unfold mainAccum
    rw [hg', hsd, hwT]
    rfl
  have hfbad : smFind (mainAccum env).1 bad = none := by
    rw [haccm, smFind_smUnion_of_none hbadNone []]
    rfl
  have hfsib : smFind (mainAccum env).1 sib =
      some { name := sib, state := .strState "running", source := "sysv" } := by
    rw [haccm]
    exact smFind_smUnion_of_some hnd hsibSome []
  have hne : (mainAccum env).1 ≠ [] := smFind_ne_nil hfsib
  refine ⟨hbadNone, hsibSome, hwT, ?_, hfbad, hfsib⟩
  simp only [mainResult]
  rw [if_neg hne, haccw]
  rfl

/-- C4 witness: on `envChk`, `svcbad` (probe exits 1 with stderr
`"user is not in sudoers file"`) is excluded, the report carries the warning,
and sibling `svcgood` (probe exits 0) is present with state `running`. -/
theorem chk_permission_skip_witness :
    smFind [("svcgood", { name := "svcgood", state := .strState "running",
                          source := "sysv" }),
            ("svcoff", { name := "svcoff", state := .strState "stopped",
                         source := "sysv" })] "svcbad" = none ∧
    smFind [("svcgood", { name := "svcgood", state := .strState "running",
                          source := "sysv" }),
            ("svcoff", { name := "svcoff", state := .strState "stopped",
                         source := "sysv" })] "svcgood" =
      some { name := "svcgood", state := .strState "running", source := "sysv" } ∧
    true = true ∧
    mainResult envChk = .success (mainAccum envChk).1 (some warnMsg) ∧
    smFind (mainAccum envChk).1 "svcbad" = none ∧
    smFind (mainAccum envChk).1 "svcgood" =
      some { name := "svcgood", state := .strState "running", source := "sysv" } :=
  chk_permission_skip envChk "/sbin/service" "/sbin/chkconfig" "svcbad" "svcgood"
    [("svcgood", { name := "svcgood", state := .strState "running", source := "sysv" }),
     ("svcoff", { name := "svcoff", state := .strState "stopped", source := "sysv" })]
    true rfl rfl (by decide) (by decide) (by decide) (by decide) (by decide) rfl

/-! ## C10 -/

/-- C10: although the chkconfig branch momentarily assigns the raw numeric
exit code to the state variable (`service_state = rc`, modelled by
`SState.codeState`), every record it emits has state exactly `running` or
`stopped`: the code path either overwrites the numeric value or skips the
service entirely. -/
theorem chk_state_invariant (env : ScanEnv) (sp ck : String) (m : SMap) (w : Bool)
    (hsp : env.servicePath = some sp) (hck : env.chkconfigPath = some ck)
    (hg : serviceScan env = some (m, w)) (k : String) (r : Record)
    (hf : smFind m k = some r) :
    r.state = SState.strState "running" ∨ r.state = SState.strState "stopped" := by
  have heq := serviceScan_chk hsp hck
  rw [heq] at hg
  have hm1 : (chkBranch env sp ck [] false).1 = m :=
    congrArg Prod.fst (Option.some.inj hg)
  rw [← hm1] at hf
  unfold chkBranch at hf
  refine chkFold_states env sp (pyLines (chkStdout env ck)) ([], false) ?_ k r hf
  intro k0 r0 h0
  simp [smFind] at h0

/-- C10 witness: the invariant applied to the `svcgood` record of `envChk`. -/
theorem chk_state_invariant_witness :
    ({ name := "svcgood", state := .strState "running",
       source := "sysv" } : Record).state = SState.strState "running" ∨
    ({ name := "svcgood", state := .strState "running",
       source := "sysv" } : Record).state = SState.strState "stopped" :=
  chk_state_invariant envChk "/sbin/service" "/sbin/chkconfig"
    [("svcgood", { name := "svcgood", state := .strState "running", source := "sysv" }),
     ("svcoff", { name := "svcoff", state := .strState "stopped", source := "sysv" })]
    true rfl rfl (by decide) "svcgood"
    { name := "svcgood", state := .strState "running", source := "sysv" }
    (by decide)

/-! ## C6 -/

/-- C6: the aggregator is total and returns one of exactly two report values:
`Skipped` with the fixed message precisely when the merged accumulator is
empty, else `Success` with the services map, carrying the fixed warning
message exactly when the OR of the backends' incomplete flags is set. -/
theorem aggregator_report (env : ScanEnv) :
    (mainResult env = .skipped skipMsg ∨
      mainResult env = .success (mainAccum env).1
        (if (mainAccum env).2 then some warnMsg else none)) ∧
    (mainResult env = .skipped skipMsg ↔ (mainAccum env).1 = []) ∧
    (mainAccum env).2 = (flagOf (serviceScan env) || flagOf (systemctlScan env)) := by
  have hmain : mainResult env =
      if (mainAccum env).1 = [] then ScanReport.skipped skipMsg
      else ScanReport.success (mainAccum env).1
        (if (mainAccum env).2 then some warnMsg else none) := rfl
  refine ⟨?_, ⟨?_, ?_⟩, ?_⟩
  · by_cases he : (mainAccum env).1 = []
    · left; rw [hmain, if_pos he]
    · right; rw [hmain, if_neg he]
  · intro h
    by_cases he : (mainAccum env).1 = []
    · exact he
    · rw [hmain, if_neg he] at h
      cases h
  · intro he
    rw [hmain, if_pos he]
  · cases hA : serviceScan env with
    | none =>
      cases hB : systemctlScan env with
      | none =>
        unfold mainAccum
        rw [hA, hB]
        rfl
      | some p =>
        obtain ⟨m2, w2⟩ := p
        unfold mainAccum
        rw [hA, hB]
        cases w2 <;> rfl
    | some p =>
      obtain ⟨m1, w1⟩ := p
      cases hB : systemctlScan env with
      | none =>
        unfold mainAccum
        rw [hA, hB]
        cases w1 <;> rfl
      | some q =>
        obtain ⟨m2, w2⟩ := q
        unfold mainAccum
        rw [hA, hB]
        cases w1 <;> cases w2 <;> rfl

/-- C6 witness: on a host with no backends at all, the aggregator returns
`Skipped` with the exact insufficient-privileges message. -/
theorem aggregator_report_witness :
    mainResult envEmpty = ScanReport.skipped skipMsg :=
  (aggregator_report envEmpty).2.1.mpr rfl

/-! ## C5 -/

/-- C5: the chkconfig fallback chain.  When the primary 7-runlevel pattern
matches no line of the base listing: if the simplified 2-column pattern
matches at least one line, the listing is re-invoked once with
`-l --allservices` and its stdout replaces the original for the final parse;
otherwise, if the original stderr contains `--list`, the listing is re-run
once with `--list` instead.  (`chkStdout` performs exactly one re-invocation
— a single `env.run` on the alternate command — and `chkBranch` re-parses
the replaced stdout with the primary pattern via `chkLineStep`.) -/
theorem chk_fallback_chain (env : ScanEnv) (sp ck : String) (services : SMap)
    (inc : Bool)
    (hnone : (pyLines (env.run ck).2.1).all (fun l => (chkPrimary l).isNone) = true) :
    ((pyLines (env.run ck).2.1).any chkSimpleMatch = true →
      chkStdout env ck = (env.run (ck ++ " -l --allservices")).2.1 ∧
      chkBranch env sp ck services inc =
        (pyLines (env.run (ck ++ " -l --allservices")).2.1).foldl
          (chkLineStep env sp) (services, inc)) ∧
    ((pyLines (env.run ck).2.1).any chkSimpleMatch = false →
      pyIn "--list" (env.run ck).2.2 = true →
      chkStdout env ck = (env.run (ck ++ " --list")).2.1 ∧
      chkBranch env sp ck services inc =
        (pyLines (env.run (ck ++ " --list")).2.1).foldl
          (chkLineStep env sp) (services, inc)) := by
  have hm : (pyLines (env.run ck).2.1).any (fun l => (chkPrimary l).isSome) = false := by
    rw [List.any_eq_false]
    intro x hx
    have hx2 := List.all_eq_true.mp hnone x hx
    simp only [Option.isNone_iff_eq_none] at hx2
    simp [hx2]
  constructor
  · intro hs
    have h1 : chkStdout env ck = (env.run (ck ++ " -l --allservices")).2.1 := by
      simp only [chkStdout]
      rw [hm, hs]
      rfl
    exact ⟨h1, by unfold chkBranch; rw [h1]⟩
  · intro hs hl
    have h1 : chkStdout env ck = (env.run (ck ++ " --list")).2.1 := by
      simp only [chkStdout]
      rw [hm, hs, hl]
      rfl
    exact ⟨h1, by unfold chkBranch; rw [h1]⟩

/-- C5 witness: on `envFb` the bare listing is 2-column, so the final parse
runs over the `-l --allservices` stdout. -/
theorem chk_fallback_chain_witness :
    chkStdout envFb "/sbin/chkconfig" =
      (envFb.run ("/sbin/chkconfig" ++ " -l --allservices")).2.1 ∧
    chkBranch envFb "/sbin/service" "/sbin/chkconfig" [] false =
      (pyLines (envFb.run ("/sbin/chkconfig" ++ " -l --allservices")).2.1).foldl
        (chkLineStep envFb "/sbin/service") ([], false) :=
  (chk_fallback_chain envFb "/sbin/service" "/sbin/chkconfig" [] false
    (by decide)).1 (by decide)

/-! ## C7 -/

/-- C7: the sysv status-line parser.  A line with at least 4 whitespace
tokens and marker token `+` (resp. `-`) at index 1 yields exactly one record,
state `running` (resp. `stopped`), name the space-join of `tokens[3:]`,
source `sysv`; a line with fewer than 4 tokens yields nothing (and no
error). -/
theorem sysv_line_parse (services : SMap) (line : String) :
    ((pySplit line).length < 4 → sysvLineStep services line = services) ∧
    (4 ≤ (pySplit line).length → (pySplit line).get? 1 = some "+" →
      sysvLineStep services line =
        smInsert services (joinWith " " ((pySplit line).drop 3))
          { name := joinWith " " ((pySplit line).drop 3),
            state := .strState "running", source := "sysv" }) ∧
    (4 ≤ (pySplit line).length → (pySplit line).get? 1 = some "-" →
      sysvLineStep services line =
        smInsert services (joinWith " " ((pySplit line).drop 3))
          { name := joinWith " " ((pySplit line).drop 3),
            state := .strState "stopped", source := "sysv" }) := by
  refine ⟨?_, ?_, ?_⟩
  · intro h
    simp only [sysvLineStep]
    rw [if_pos h]
  · intro h4 hm
    simp only [sysvLineStep]
    rw [if_neg (by omega), if_pos hm]
  · intro h4 hm
    simp only [sysvLineStep]
    rw [if_neg (by omega), if_neg (by rw [hm]; simp)]

/-- C7 witness: the parser applied to a 5-token `+` line whose service name
contains a space. -/
theorem sysv_line_parse_witness :
    sysvLineStep [] "[ + ]  acpid daemon" =
      smInsert [] (joinWith " " ((pySplit "[ + ]  acpid daemon").drop 3))
        { name := joinWith " " ((pySplit "[ + ]  acpid daemon").drop 3),
          state := .strState "running", source := "sysv" } :=
  (sysv_line_parse [] "[ + ]  acpid daemon").2.1 (by decide) (by decide)

/-! ## C8 -/

/-- C8: the systemd unit-file parser.  A listing line with exactly two
whitespace tokens yields one record named by the first token, state
`running` iff the second token is `enabled` (anything else `stopped`),
source `systemd`; any other token count yields nothing. -/
theorem systemd_line_parse (services : SMap) (line : String) :
    (∀ a b, pySplit line = [a, b] →
      systemdLineStep services line =
        smInsert services a
          { name := a,
            state := .strState (if b = "enabled" then "running" else "stopped"),
            source := "systemd" }) ∧
    (∀ a b, pySplit line = [a, b] → b = "enabled" →
      systemdLineStep services line =
        smInsert services a
          { name := a, state := .strState "running", source := "systemd" }) ∧
    (∀ a b, pySplit line = [a, b] → b ≠ "enabled" →
      systemdLineStep services line =
        smInsert services a
          { name := a, state := .strState "stopped", source := "systemd" }) ∧
    ((pySplit line).length ≠ 2 → systemdLineStep services line = services) := by
  have hbase : ∀ a b, pySplit line = [a, b] →
      systemdLineStep services line =
        smInsert services a
          { name := a,
            state := .strState (if b = "enabled" then "running" else "stopped"),
            source := "systemd" } := by
    intro a b h
    simp only [systemdLineStep]
    rw [h]
  refine ⟨hbase, ?_, ?_, ?_⟩
  · intro a b h hb
    rw [hbase a b h, hb, if_pos rfl]
  · intro a b h hb
    rw [hbase a b h, if_neg hb]
  · intro h
    simp only [systemdLineStep]
    cases hs : pySplit line with
    | nil => rfl
    | cons a t =>
      cases t with
      | nil => rfl
      | cons b t2 =>
        cases t2 with
        | nil => exact absurd (by rw [hs]; rfl) h
        | cons c t3 => rfl

/-- C8 witness: the parser applied to `"ssh.service enabled"`. -/
theorem systemd_line_parse_witness :
    systemdLineStep [] "ssh.service enabled" =
      smInsert [] "ssh.service"
        { name := "ssh.service", state := .strState "running",
          source := "systemd" } :=
  (systemd_line_parse [] "ssh.service enabled").2.1 "ssh.service" "enabled"
    (by decide) rfl

/-! ## C9 -/

theorem mainStep_coherent {acc : SMap × Bool} {o : Option (SMap × Bool)}
    (ha : smCoherent acc.1)
    (ho : ∀ m w, o = some (m, w) → smCoherent m) :
    smCoherent (mainStep acc o).1 := by
  cases o with
  | none => exact ha
  | some p =>
    obtain ⟨m, w⟩ := p
    exact smCoherent_smUnion ha (ho m w rfl)

/-- C9: key-record coherence.  In every map either scanner returns and in the
final merged map, the record stored under a key has `name` equal to that key
and `source` one of `sysv`, `upstart`, `systemd`. -/
theorem record_coherence (env : ScanEnv) :
    (∀ m w k r, serviceScan env = some (m, w) → smFind m k = some r →
      r.name = k ∧
      (r.source = "sysv" ∨ r.source = "upstart" ∨ r.source = "systemd")) ∧
    (∀ m w k r, systemctlScan env = some (m, w) → smFind m k = some r →
      r.name = k ∧
      (r.source = "sysv" ∨ r.source = "upstart" ∨ r.source = "systemd")) ∧
    (∀ S msg k r, mainResult env = .success S msg → smFind S k = some r →
      r.name = k ∧
      (r.source = "sysv" ∨ r.source = "upstart" ∨ r.source = "systemd")) := by
  refine ⟨?_, ?_, ?_⟩
  · intro m w k r h hf
    exact smCoherent_find (serviceScan_coherent h) hf
  · intro m w k r h hf
    exact smCoherent_find (systemctlScan_coherent h) hf
  · intro S msg k r h hf
    have hacc : smCoherent (mainAccum env).1 := by
      have h1 : smCoherent (mainStep ([], false) (serviceScan env)).1 :=
        mainStep_coherent smCoherent_nil (fun _ _ h' => serviceScan_coherent h')
      exact mainStep_coherent h1 (fun _ _ h' => systemctlScan_coherent h')
    have hS : S = (mainAccum env).1 := by
      have hmain : mainResult env =
          if (mainAccum env).1 = [] then ScanReport.skipped skipMsg
          else ScanReport.success (mainAccum env).1
            (if (mainAccum env).2 then some warnMsg else none) := rfl
      rw [hmain] at h
      by_cases he : (mainAccum env).1 = []
      · rw [if_pos he] at h; cases h
      · rw [if_neg he] at h
        cases h
        rfl
    subst hS
    exact smCoherent_find hacc hf

/-- C9 witness: the coherence of the `ssh` record in `envFull`'s final map. -/
theorem record_coherence_witness :
    ({ name := "ssh", state := .strState "stopped",
       source := "systemd" } : Record).name = "ssh" ∧
    (({ name := "ssh", state := .strState "stopped",
        source := "systemd" } : Record).source = "sysv" ∨
     ({ name := "ssh", state := .strState "stopped",
        source := "systemd" } : Record).source = "upstart" ∨
     ({ name := "ssh", state := .strState "stopped",
        source := "systemd" } : Record).source = "systemd") :=
  (record_coherence envFull).2.2 (mainAccum envFull).1 none "ssh"
    { name := "ssh", state := .strState "stopped", source := "systemd" }
    (by decide) (by decide)
